import Mathlib

/-!
Shallow embedding of the epub-yes repository (an iced-based EPUB editor
prototype) and proofs of specification claims about it.

The embedding covers:
- the data model and message-dispatch update function of the richer
  prototype in test/ui2.rs (Epub, EpubMetadata, EpubItem, EditorMode,
  EpubEditor, Message, MetadataField, EpubEditor.update);
- the simpler prototype in src/ui.rs (Ui.EpubEditor, Ui.Message,
  Ui.EpubEditor.update);
- the metadata-dump helper in src/epub_handler.rs (EpubHandler.open_epub).

The Rust HashMap of manifest items is embedded as an association list with
HashMap lookup semantics (first matching key; keys are unique in the Rust
map). The external Markdown renderer (pulldown_cmark) and the external
EPUB parsing library are out of scope per the spec; they are embedded as
function parameters and abstract inputs respectively. The iced Command
values returned by update are pure I/O effect descriptions; the state
transition itself is the update function embedded here. The asynchronous
body of the OpenEpub command in test/ui2.rs is embedded as openEpubTask.
-/

/-- Metadata of an EPUB document, as in test/ui2.rs: struct EpubMetadata. -/
structure EpubMetadata where
  title : String
  author : String
  language : String
deriving DecidableEq

/-- A manifest item, as in test/ui2.rs: struct EpubItem. -/
structure EpubItem where
  id : String
  href : String
  media_type : String
  content : String
deriving DecidableEq

/-- An EPUB document, as in test/ui2.rs: struct Epub. The HashMap manifest
is embedded as an association list keyed by item id. -/
structure Epub where
  metadata : EpubMetadata
  spine : List String
  manifest : List (String × EpubItem)
deriving DecidableEq

namespace Manifest

/-- HashMap::get on the manifest: the value at the first matching key. -/
def get (m : List (String × EpubItem)) (key : String) : Option EpubItem :=
  match m with
  | [] => none
  | p :: rest => if p.1 == key then some p.2 else get rest key

/-- The effect of manifest.get_mut(id) followed by item.content = c in
test/ui2.rs: the entry with the given key has its content replaced; when
the key is absent nothing changes. Keys in the Rust HashMap are unique, so
rewriting every matching entry of the association list agrees with it. -/
def setContent (m : List (String × EpubItem)) (key c : String) :
    List (String × EpubItem) :=
  match m with
  | [] => []
  | p :: rest =>
      (if p.1 == key then (p.1, { p.2 with content := c }) else p) ::
        setContent rest key c

end Manifest

/-- Epub::new in test/ui2.rs: the empty document. -/
def Epub.new : Epub :=
  { metadata := { title := "", author := "", language := "" }
    spine := []
    manifest := [] }

/-- Editor mode, as in test/ui2.rs: enum EditorMode. -/
inductive EditorMode where
  | RichText
  | Markdown
deriving DecidableEq

/-- Application state, as in test/ui2.rs: struct EpubEditor. -/
structure EpubEditor where
  epub : Epub
  current_item_id : Option String
  edit_content : String
  editor_mode : EditorMode
  markdown_preview : String
deriving DecidableEq

/-- Metadata field selector, as in test/ui2.rs: enum MetadataField. -/
inductive MetadataField where
  | Title
  | Author
  | Language
deriving DecidableEq

/-- Messages of the richer prototype, as in test/ui2.rs: enum Message.
Rust Result is embedded as Except. -/
inductive Message where
  | OpenEpub
  | EpubLoaded (r : Except String Epub)
  | SelectItem (id : String)
  | EditContent (s : String)
  | SaveContent
  | UpdateMetadata (f : MetadataField) (v : String)
  | ToggleEditorMode
  | UpdateMarkdownPreview

/-- EpubEditor::update_markdown_preview in test/ui2.rs. The pulldown_cmark
pipeline (Parser::new_ext with strikethrough enabled, html::push_html) is
an external library; it is embedded as the render parameter, applied to the
edit buffer and stored in markdown_preview. -/
def EpubEditor.update_markdown_preview (render : String → String)
    (st : EpubEditor) : EpubEditor :=
  { st with markdown_preview := render st.edit_content }

/-- EpubEditor::update in test/ui2.rs: the message dispatcher. Only the
state transition is embedded; the returned iced Command values are effect
descriptions (Command::none everywhere except OpenEpub, whose asynchronous
body is openEpubTask below). -/
def EpubEditor.update (render : String → String) (st : EpubEditor)
    (msg : Message) : EpubEditor :=
  match msg with
  | .OpenEpub => st
  | .EpubLoaded (.ok epub) =>
      let st1 := { st with epub := epub }
      match st1.epub.spine.head? with
      | some first_item =>
          let st2 := { st1 with current_item_id := some first_item }
          match Manifest.get st2.epub.manifest first_item with
          | some item => { st2 with edit_content := item.content }
          | none => st2
      | none => st1
  | .EpubLoaded (.error _) => st
  | .SelectItem id =>
      let st1 := { st with current_item_id := some id }
      let st2 :=
        match Manifest.get st1.epub.manifest id with
        | some item => { st1 with edit_content := item.content }
        | none => st1
      EpubEditor.update_markdown_preview render st2
  | .EditContent c =>
      let st1 := { st with edit_content := c }
      match st1.editor_mode with
      | .Markdown => EpubEditor.update_markdown_preview render st1
      | .RichText => st1
  | .SaveContent =>
      match st.current_item_id with
      | some id =>
          { st with epub :=
              { st.epub with manifest :=
                  Manifest.setContent st.epub.manifest id st.edit_content } }
      | none => st
  | .UpdateMetadata f v =>
      match f with
      | .Title =>
          { st with epub :=
              { st.epub with metadata := { st.epub.metadata with title := v } } }
      | .Author =>
          { st with epub :=
              { st.epub with metadata := { st.epub.metadata with author := v } } }
      | .Language =>
          { st with epub :=
              { st.epub with metadata := { st.epub.metadata with language := v } } }
  | .ToggleEditorMode =>
      let st1 :=
        { st with editor_mode :=
            match st.editor_mode with
            | .RichText => EditorMode.Markdown
            | .Markdown => EditorMode.RichText }
      match st1.editor_mode with
      | .Markdown => EpubEditor.update_markdown_preview render st1
      | .RichText => st1
  | .UpdateMarkdownPreview => EpubEditor.update_markdown_preview render st

/-- The asynchronous body of the OpenEpub command in test/ui2.rs: when the
file dialog yields a file it returns Ok(Epub::new()) regardless of the
file (the parsing logic is a stub), otherwise the no-file-selected error.
The dialog outcome is embedded as an optional picked path. -/
def openEpubTask (picked : Option String) : Except String Epub :=
  match picked with
  | some _ => .ok Epub.new
  | none => .error "No file selected"

/-- The initial application state built by Application::new in
test/ui2.rs. -/
def EpubEditor.new : EpubEditor :=
  { epub := Epub.new
    current_item_id := none
    edit_content := ""
    editor_mode := .RichText
    markdown_preview := "" }

namespace Ui

/-- Application state of the simpler prototype in src/ui.rs: struct
EpubEditor. The epub_handler field is a unit struct carrying no data and
is omitted. -/
structure EpubEditor where
  current_content : String
  edit_content : String
deriving DecidableEq

/-- Messages of the simpler prototype, as in src/ui.rs: enum Message. -/
inductive Message where
  | OpenEpub
  | EpubLoaded (r : Except String String)
  | EditContent (s : String)
  | SaveContent
  | Test

/-- EpubEditor::update in src/ui.rs. Only the state transition is
embedded; returned iced Command values are effect descriptions. -/
def EpubEditor.update (st : EpubEditor) (msg : Message) : EpubEditor :=
  match msg with
  | .OpenEpub => st
  | .EpubLoaded (.ok c) => { current_content := c, edit_content := c }
  | .EpubLoaded (.error _) => st
  | .EditContent c => { st with edit_content := c }
  | .SaveContent => { st with current_content := st.edit_content }
  | .Test => st

end Ui

/-- Abstraction of the external EpubDoc value produced by the epub parsing
library in src/epub_handler.rs: only its metadata table is used, a
sequence of key and multi-value entries. -/
structure EpubDoc where
  metadata : List (String × List String)

namespace EpubHandler

/-- EpubHandler::open_epub in src/epub_handler.rs. The external call
EpubDoc::new(path) is embedded as the openResult input (Ok with the
parsed document, or Err with the display text of the library error e).
On success each metadata entry (k, v) becomes the line k ++ ": " ++
v.join(", ") and the lines are joined with newlines; Rust slice join is
String.intercalate. On failure the formatted error message is returned. -/
def open_epub (openResult : Except String EpubDoc) : Except String String :=
  match openResult with
  | .ok doc =>
      .ok (String.intercalate "\n"
        (doc.metadata.map (fun kv => kv.1 ++ ": " ++ String.intercalate ", " kv.2)))
  | .error e => .error ("Error opening EPUB: " ++ e)

end EpubHandler

/-! ### Concrete fixtures used by witnesses and counterexamples -/

/-- A three-item book with ids a, b, c and spine [a, b, c]. -/
def threeItemBook : Epub :=
  { metadata := { title := "Book", author := "Author", language := "en" }
    spine := ["a", "b", "c"]
    manifest :=
      [ ("a", { id := "a", href := "a.xhtml",
                media_type := "application/xhtml+xml", content := "A" })
      , ("b", { id := "b", href := "b.xhtml",
                media_type := "application/xhtml+xml", content := "B" })
      , ("c", { id := "c", href := "c.xhtml",
                media_type := "application/xhtml+xml", content := "C" }) ] }

/-- The scenario state: the three-item book opened, item b selected, the
buffer edited to hello, just before the save message. -/
def scenarioSt : EpubEditor :=
  EpubEditor.update (fun s => s)
    (EpubEditor.update (fun s => s)
      { EpubEditor.new with epub := threeItemBook }
      (.SelectItem "b"))
    (.EditContent "hello")

/-- A state with a pending Markdown buffer and a stale preview. -/
def previewStateA : EpubEditor :=
  { EpubEditor.new with edit_content := "x *y*", markdown_preview := "old" }

/-- A state sharing the edit buffer of previewStateA but differing in
every other field that can differ. -/
def previewStateB : EpubEditor :=
  { epub := threeItemBook
    current_item_id := some "z"
    edit_content := "x *y*"
    editor_mode := .Markdown
    markdown_preview := "other" }

/-- A state with an open item id x that names nothing in the manifest of
the document loaded next. -/
def staleState : EpubEditor :=
  { EpubEditor.new with
      current_item_id := some "x"
      edit_content := "buffer"
      editor_mode := .Markdown
      markdown_preview := "pv" }

/-- A document with an empty spine and empty manifest but non-empty
metadata, loaded over staleState in the C10 witness. -/
def emptySpineDoc : Epub :=
  { metadata := { title := "T", author := "U", language := "fr" }
    spine := []
    manifest := [] }

/-! ### Helper lemmas -/

/-- Rust slice join semantics, written as an explicit recursion: the
empty sequence joins to the empty string, a single element to itself, and
otherwise the separator stands between consecutive elements. Used to give
an independent characterization of String.intercalate. -/
def joinWith (sep : String) : List String → String
  | [] => ""
  | [x] => x
  | x :: y :: rest => x ++ sep ++ joinWith sep (y :: rest)

/-- The tail of a join: each remaining element preceded by the separator. -/
def tailJoin (sep : String) : List String → String
  | [] => ""
  | a :: as => sep ++ a ++ tailJoin sep as

theorem intercalate_go_eq (sep : String) :
    ∀ (l : List String) (acc : String),
      String.intercalate.go acc sep l = acc ++ tailJoin sep l := by
  intro l
  induction l with
  | nil =>
      intro acc
      simp [String.intercalate.go, tailJoin]
  | cons a as ih =>
      intro acc
      simp only [String.intercalate.go, tailJoin]
      rw [ih]
      simp [String.append_assoc]

theorem joinWith_cons (sep : String) :
    ∀ (as : List String) (a : String),
      joinWith sep (a :: as) = a ++ tailJoin sep as := by
  intro as
  induction as with
  | nil =>
      intro a
      simp [joinWith, tailJoin]
  | cons y rest ih =>
      intro a
      simp only [joinWith, tailJoin]
      rw [ih]
      simp [String.append_assoc]

/-- String.intercalate agrees with the explicit recursion joinWith. -/
theorem intercalate_eq_joinWith (sep : String) (l : List String) :
    String.intercalate sep l = joinWith sep l := by
  cases l with
  | nil => rfl
  | cons a as =>
      show String.intercalate.go a sep as = _
      rw [intercalate_go_eq, joinWith_cons]

theorem Manifest.get_setContent_self (m : List (String × EpubItem))
    (key c : String) :
    Manifest.get (Manifest.setContent m key c) key =
      (Manifest.get m key).map (fun it => { it with content := c }) := by
  induction m with
  | nil => rfl
  | cons p rest ih =>
      by_cases h : p.1 = key
      · simp [Manifest.get, Manifest.setContent, h]
      · simp [Manifest.get, Manifest.setContent, h, ih]

theorem Manifest.get_setContent_other (m : List (String × EpubItem))
    (key c k : String) (h : k ≠ key) :
    Manifest.get (Manifest.setContent m key c) k = Manifest.get m k := by
  induction m with
  | nil => rfl
  | cons p rest ih =>
      by_cases hpk : p.1 = key
      · have hk : p.1 ≠ k := fun he => h (he ▸ hpk)
        simp [Manifest.get, Manifest.setContent, hpk, hk, ih, Ne.symm h]
      · by_cases hpkk : p.1 = k
        · simp [Manifest.get, Manifest.setContent, hpk, hpkk, h]
        · simp [Manifest.get, Manifest.setContent, hpk, hpkk, ih]


/-! ### Claim theorems -/

/-- Claim C1: for every editor state whose current item id is set to a key
of the manifest, processing the save message writes the edit buffer into
that manifest items content, while every other manifest item, the spine
and the metadata are unchanged. -/
theorem claim_C1_commit_writes_buffer (render : String → String)
    (st : EpubEditor) (id : String) (item : EpubItem)
    (h1 : st.current_item_id = some id)
    (h2 : Manifest.get st.epub.manifest id = some item) :
    Manifest.get (EpubEditor.update render st .SaveContent).epub.manifest id =
      some { item with content := st.edit_content } ∧
    (∀ k, k ≠ id →
      Manifest.get (EpubEditor.update render st .SaveContent).epub.manifest k =
        Manifest.get st.epub.manifest k) ∧
    (EpubEditor.update render st .SaveContent).epub.spine = st.epub.spine ∧
    (EpubEditor.update render st .SaveContent).epub.metadata =
      st.epub.metadata := by
  refine ⟨?_, ?_, ?_, ?_⟩
  · simp [EpubEditor.update, h1, Manifest.get_setContent_self, h2]
  · intro k hk
    simp [EpubEditor.update, h1, Manifest.get_setContent_other _ _ _ _ hk]
  · simp [EpubEditor.update, h1]
  · simp [EpubEditor.update, h1]

/-- Witness for C1 at the spec scenario: after opening item b of the
three-item book, editing hello and saving, item b holds hello. -/
theorem claim_C1_witness :
    Manifest.get
      (EpubEditor.update (fun s => s) scenarioSt .SaveContent).epub.manifest
      "b" =
    some { id := "b", href := "b.xhtml",
           media_type := "application/xhtml+xml", content := "hello" } :=
  (claim_C1_commit_writes_buffer (fun s => s) scenarioSt "b"
    { id := "b", href := "b.xhtml",
      media_type := "application/xhtml+xml", content := "B" }
    rfl rfl).1

/-- Counterexample to claim C2: the id x is absent from the manifest of
the initial state, yet processing SelectItem x sets the current item id
to x; the operation does not fail (the update has no error channel). -/
theorem claim_C2_counterexample :
    Manifest.get EpubEditor.new.epub.manifest "x" = none ∧
    (EpubEditor.update (fun s => s) EpubEditor.new
      (.SelectItem "x")).current_item_id = some "x" :=
  ⟨rfl, rfl⟩

/-- Claim C2 as amended: SelectItem id always sets the current item id to
id and never fails; it loads the items content into the edit buffer when
id is a key of the manifest, and leaves the buffer unchanged when it is
not. -/
theorem claim_C2_select_always_sets_id (render : String → String)
    (st : EpubEditor) (id : String) :
    (EpubEditor.update render st (.SelectItem id)).current_item_id =
      some id ∧
    (EpubEditor.update render st (.SelectItem id)).edit_content =
      (match Manifest.get st.epub.manifest id with
       | some item => item.content
       | none => st.edit_content) := by
  cases hg : Manifest.get st.epub.manifest id <;>
    simp [EpubEditor.update, EpubEditor.update_markdown_preview, hg]

/-- Counterexample to claim C3: in the initial state no current item id is
set, yet processing the save message returns the state completely
unchanged and signals no error - a silent no-op. -/
theorem claim_C3_counterexample :
    EpubEditor.new.current_item_id = none ∧
    EpubEditor.update (fun s => s) EpubEditor.new .SaveContent =
      EpubEditor.new :=
  ⟨rfl, rfl⟩

/-- Claim C3 as amended: whenever no current item id is set, processing
the save message is a silent no-op - the state is returned unchanged and
no error value exists anywhere in the dispatcher. -/
theorem claim_C3_save_noop_without_open_item (render : String → String)
    (st : EpubEditor) (h : st.current_item_id = none) :
    EpubEditor.update render st .SaveContent = st := by
  simp [EpubEditor.update, h]

/-- Witness for the amended C3 at the initial state. -/
theorem claim_C3_witness :
    EpubEditor.update (fun s => s ++ s) EpubEditor.new .SaveContent =
      EpubEditor.new :=
  claim_C3_save_noop_without_open_item (fun s => s ++ s) EpubEditor.new rfl

/-- Claim C4: processing a failed load message leaves the whole state
unchanged, in both prototypes - the previously open document, the current
item id and the edit buffer in test/ui2.rs, and the current content and
edit buffer in src/ui.rs. -/
theorem claim_C4_failed_load_preserves_state (render : String → String)
    (st : EpubEditor) (e : String) (st2 : Ui.EpubEditor) (e2 : String) :
    EpubEditor.update render st (.EpubLoaded (.error e)) = st ∧
    Ui.EpubEditor.update st2 (.EpubLoaded (.error e2)) = st2 :=
  ⟨rfl, rfl⟩

/-- Claim C5: the open-EPUB task of the richer prototype is a stub - with
any file picked it returns Ok of the empty document (empty title, author,
language, spine and manifest) regardless of the file, and with no file
picked it returns the no-file-selected error. -/
theorem claim_C5_open_epub_is_stub (path : String) :
    openEpubTask (some path) =
      .ok { metadata := { title := "", author := "", language := "" }
            spine := []
            manifest := [] } ∧
    openEpubTask none = .error "No file selected" :=
  ⟨rfl, rfl⟩

/-- Claim C6: on a successfully opened EPUB, open_epub returns Ok of the
display text in which each metadata entry (k, vs) becomes the line k
followed by a colon, a space and the values joined by comma-space, the
lines being joined by newlines (joinWith is the explicit join recursion);
on a library failure it returns Err of a message string and no content. -/
theorem claim_C6_open_epub_metadata_dump
    (md : List (String × List String)) (e : String) :
    EpubHandler.open_epub (.ok { metadata := md }) =
      .ok (joinWith "\n"
        (md.map (fun kv => kv.1 ++ ": " ++ joinWith ", " kv.2))) ∧
    EpubHandler.open_epub (.error e) =
      .error ("Error opening EPUB: " ++ e) := by
  constructor
  · simp only [EpubHandler.open_epub, intercalate_eq_joinWith]
  · rfl

/-- Claim C7: the Markdown preview pass is a pure function of the edit
buffer - two states with equal edit buffers yield equal previews - and it
modifies nothing but the preview: the document, the current item id, the
edit buffer and the editor mode are unchanged. -/
theorem claim_C7_markdown_preview_pure (render : String → String)
    (s1 s2 : EpubEditor) (h : s1.edit_content = s2.edit_content) :
    (EpubEditor.update render s1 .UpdateMarkdownPreview).markdown_preview =
      (EpubEditor.update render s2 .UpdateMarkdownPreview).markdown_preview ∧
    (EpubEditor.update render s1 .UpdateMarkdownPreview).epub = s1.epub ∧
    (EpubEditor.update render s1 .UpdateMarkdownPreview).current_item_id =
      s1.current_item_id ∧
    (EpubEditor.update render s1 .UpdateMarkdownPreview).edit_content =
      s1.edit_content ∧
    (EpubEditor.update render s1 .UpdateMarkdownPreview).editor_mode =
      s1.editor_mode := by
  simp [EpubEditor.update, EpubEditor.update_markdown_preview, h]

/-- Witness for C7 at two concrete states that share the edit buffer but
differ in document, current item id, mode and stale preview. -/
theorem claim_C7_witness :
    (EpubEditor.update (fun s => s ++ s) previewStateA
      .UpdateMarkdownPreview).markdown_preview =
    (EpubEditor.update (fun s => s ++ s) previewStateB
      .UpdateMarkdownPreview).markdown_preview :=
  (claim_C7_markdown_preview_pure (fun s => s ++ s)
    previewStateA previewStateB rfl).1

/-- Claim C8: updating a metadata field always succeeds (the dispatcher is
total and has no error outcome), sets exactly the named field to the given
value, and leaves the other two metadata fields, the manifest, the spine
and all remaining editor state unchanged. -/
theorem claim_C8_update_metadata_exact (render : String → String)
    (st : EpubEditor) (f : MetadataField) (v : String) :
    (EpubEditor.update render st (.UpdateMetadata f v)).epub.manifest =
      st.epub.manifest ∧
    (EpubEditor.update render st (.UpdateMetadata f v)).epub.spine =
      st.epub.spine ∧
    (EpubEditor.update render st (.UpdateMetadata f v)).current_item_id =
      st.current_item_id ∧
    (EpubEditor.update render st (.UpdateMetadata f v)).edit_content =
      st.edit_content ∧
    (EpubEditor.update render st (.UpdateMetadata f v)).editor_mode =
      st.editor_mode ∧
    (EpubEditor.update render st (.UpdateMetadata f v)).markdown_preview =
      st.markdown_preview ∧
    (EpubEditor.update render st (.UpdateMetadata f v)).epub.metadata =
      (match f with
       | .Title => { st.epub.metadata with title := v }
       | .Author => { st.epub.metadata with author := v }
       | .Language => { st.epub.metadata with language := v }) := by
  cases f <;> simp [EpubEditor.update]

/-- Claim C9: toggling the editor mode twice restores the editor mode
field to its original value - the toggle is an involution on the mode. -/
theorem claim_C9_toggle_mode_involution (render : String → String)
    (st : EpubEditor) :
    (EpubEditor.update render
      (EpubEditor.update render st .ToggleEditorMode)
      .ToggleEditorMode).editor_mode = st.editor_mode := by
  cases h : st.editor_mode <;>
    simp [EpubEditor.update, EpubEditor.update_markdown_preview, h]

/-- Claim C10: loading a document with an empty spine replaces only the
stored document; the current item id, the edit buffer, the editor mode
and the Markdown preview keep their previous values, so the current item
id may afterwards name an id that the new manifest does not contain. -/
theorem claim_C10_load_empty_spine_frame (render : String → String)
    (st : EpubEditor) (epub : Epub) (h : epub.spine = []) :
    EpubEditor.update render st (.EpubLoaded (.ok epub)) =
      { st with epub := epub } := by
  simp [EpubEditor.update, h]

/-- Witness for C10: loading the empty-spine document over a state whose
open item id x is absent from the new manifest keeps id x and the rest of
the editor state. -/
theorem claim_C10_witness :
    EpubEditor.update (fun s => s) staleState
      (.EpubLoaded (.ok emptySpineDoc)) =
    { staleState with epub := emptySpineDoc } :=
  claim_C10_load_empty_spine_frame (fun s => s) staleState emptySpineDoc rfl
